import Mathlib

/-!
Verification development for the grammY auto-retry transformer.

The transformer (src/src/mod.ts) wraps a transport call `prev`. After every
transport attempt it inspects the result: a failure carrying a numeric
`retry_after` within `maxDelaySeconds` causes a sleep of `retry_after`
seconds followed by a resubmission; a failure with `error_code >= 500` is
retried with exponential backoff unless `rethrowInternalServerErrors` is
set; thrown `HttpError`s are retried with the same backoff inside `call()`
unless `rethrowHttpErrors` is set or the abort signal has fired; the
resubmission budget is `maxRetryAttempts`. The shared-cohort variant
(src/unnamed/part_001) additionally keeps a module-level `waitUntils` map
from a wait key to a resume timestamp and waits out the cohort-wide delay.

We embed both loops as fuel-indexed interpreters over explicit state and
record the observable effects (transport invocations and completed sleeps)
as an event trace.
-/

namespace AutoRetry

/-- A Telegram API response as the transformer sees it: the `ok` flag, the
optional `error_code`, and the optional `parameters.retry_after` field
(`none` models an absent field). -/
structure ApiResponse where
  ok : Bool
  error_code : Option Nat
  retry_after : Option Nat
deriving DecidableEq

/-- Outcome of one transport invocation (one call of `prev`): a well-formed
response, a thrown `HttpError`, or some other thrown error. The `Nat`
payload identifies the thrown error object. -/
inductive TransportResult where
  | resp (r : ApiResponse)
  | throwHttp (e : Nat)
  | throwOther (e : Nat)
deriving DecidableEq

/-- Whether the transport produced a response rather than throwing. -/
def TransportResult.isResp : TransportResult → Bool
  | .resp _ => true
  | _ => false

/-- An error escaping the transformer: a rethrown `HttpError`, a rethrown
other error, or the abort error raised by `pause` when the signal fires
mid-sleep. -/
inductive Err where
  | http (e : Nat)
  | other (e : Nat)
  | abortError
deriving DecidableEq

/-- Observable effects of a run: transport invocations (recording the
method and payload passed to `prev` and the invocation index) and completed
sleeps (in seconds). -/
inductive Event where
  | call (method : String) (payload : String) (idx : Nat)
  | sleep (seconds : Nat)
deriving DecidableEq

/-- Whether an event is a transport invocation. -/
def Event.isCall : Event → Bool
  | .call _ _ _ => true
  | .sleep _ => false

/-- Whether an event is a completed sleep. -/
def Event.isSleep : Event → Bool
  | .call _ _ _ => false
  | .sleep _ => true

/-- Number of transport invocations in a trace. -/
def callCount (evs : List Event) : Nat := (evs.filter Event.isCall).length

/-- Number of completed sleeps in a trace. -/
def sleepCount (evs : List Event) : Nat := (evs.filter Event.isSleep).length

/-- The options of `autoRetry` in src/src/mod.ts after defaulting; `none`
encodes the `Infinity` default of `maxDelaySeconds` and
`maxRetryAttempts`. -/
structure AutoRetryOptions where
  maxDelaySeconds : Option Nat
  maxRetryAttempts : Option Nat
  rethrowInternalServerErrors : Bool
  rethrowHttpErrors : Bool
deriving DecidableEq

/-- `const ONE_HOUR = 3600` (seconds), src/src/mod.ts line 9. -/
def ONE_HOUR : Nat := 3600

/-- `const INITIAL_LAST_DELAY = 3` (seconds), src/src/mod.ts line 10. -/
def INITIAL_LAST_DELAY : Nat := 3

/-- The `nextDelay` update performed by `backoff()` (src/src/mod.ts line
108): `Math.min(ONE_HOUR, nextDelay + nextDelay)`. -/
def backoffNext (nextDelay : Nat) : Nat := min ONE_HOUR (nextDelay + nextDelay)

/-- `n <= maxDelay` where `maxDelay` may be `Infinity` (`none`). -/
def leMax (n : Nat) : Option Nat → Bool
  | none => true
  | some d => n ≤ d

/-- `result.error_code >= 500`, false when the field is absent. -/
def geq500 : Option Nat → Bool
  | none => false
  | some c => 500 ≤ c

/-- `remainingAttempts > 0` where `Infinity` (`none`) is always positive. -/
def attemptsPos : Option Nat → Bool
  | none => true
  | some n => 0 < n

/-- The `remainingAttempts--` decrement; `Infinity` stays `Infinity`. -/
def attemptsDec : Option Nat → Option Nat
  | none => none
  | some n => some (n - 1)

/-- `signal.aborted` at time `c`, for a signal that fires at `abortAt`
(`none`: no signal, or a signal that never fires). -/
def abortedNow (abortAt : Option Nat) (c : Nat) : Bool :=
  match abortAt with
  | none => false
  | some t => t ≤ c

/-- Models `pause` (src/src/mod.ts lines 12-25) started at time `c` for `d`
seconds: if the abort signal fires strictly inside the sleeping window the
timeout is cleared and the promise rejects at that moment (returned as
`some t`); otherwise the timeout resolves after `d` seconds (`none`). A
signal that already fired before the sleep began has no listener to
trigger, so the sleep resolves normally. -/
def sleepAbort (abortAt : Option Nat) (c d : Nat) : Option Nat :=
  match abortAt with
  | none => none
  | some t => if c < t ∧ t < c + d then some t else none

/-- The rate-limit test of src/src/mod.ts lines 138-141:
`typeof result.parameters?.retry_after === "number" &&
result.parameters.retry_after <= maxDelay`. -/
def rateLimited (r : ApiResponse) (maxDelay : Option Nat) : Bool :=
  match r.retry_after with
  | some ra => leMax ra maxDelay
  | none => false

/-- Outcome of one logical call through the transformer: a returned
response together with the trace of events, a propagated error with the
trace and the time of the failure, or fuel exhaustion (the run was still
going after `fuel` transport invocations). -/
inductive RunOut where
  | done (events : List Event) (r : ApiResponse)
  | thrown (events : List Event) (e : Err) (tAt : Nat)
  | diverge (events : List Event)
deriving DecidableEq

/-- Prefix a trace of already-performed events onto an outcome. -/
def RunOut.withEvents (pre : List Event) : RunOut → RunOut
  | .done evs r => .done (pre ++ evs) r
  | .thrown evs e t => .thrown (pre ++ evs) e t
  | .diverge evs => .diverge (pre ++ evs)

/-- The trace of an outcome. -/
def RunOut.events : RunOut → List Event
  | .done evs _ => evs
  | .thrown evs _ _ => evs
  | .diverge evs => evs

/-- The retry loop of the transformer returned by `autoRetry`
(src/src/mod.ts lines 101-161), with the transport-error loop of `call()`
(lines 110-131) fused in: each step performs one transport invocation and
then takes the decision the source takes on its outcome. State: `idx`
counts transport invocations made so far, `nextDelay` is the
exponential-backoff delay, `rem` is `remainingAttempts`, and `c` is the
current time in seconds. The fuel bounds how many transport invocations
the run may still perform; transport invocations take no model time. -/
def run (cfg : AutoRetryOptions) (tr : Nat → TransportResult)
    (method payload : String) (abortAt : Option Nat) :
    Nat → Nat → Nat → Option Nat → Nat → RunOut
  | 0, _, _, _, _ => .diverge []
  | fuel + 1, idx, nextDelay, rem, c =>
    match tr idx with
    | .throwOther e => .thrown [.call method payload idx] (.other e) c
    | .throwHttp e =>
      if abortedNow abortAt c || cfg.rethrowHttpErrors then
        .thrown [.call method payload idx] (.http e) c
      else
        match sleepAbort abortAt c nextDelay with
        | some t => .thrown [.call method payload idx] .abortError t
        | none =>
          RunOut.withEvents [.call method payload idx, .sleep nextDelay]
            (run cfg tr method payload abortAt fuel (idx + 1)
              (backoffNext nextDelay) rem (c + nextDelay))
    | .resp r =>
      if rateLimited r cfg.maxDelaySeconds then
        match sleepAbort abortAt c (r.retry_after.getD 0) with
        | some t => .thrown [.call method payload idx] .abortError t
        | none =>
          if !r.ok && attemptsPos rem then
            RunOut.withEvents [.call method payload idx, .sleep (r.retry_after.getD 0)]
              (run cfg tr method payload abortAt fuel (idx + 1)
                INITIAL_LAST_DELAY (attemptsDec rem) (c + r.retry_after.getD 0))
          else .done [.call method payload idx, .sleep (r.retry_after.getD 0)] r
      else if geq500 r.error_code && !cfg.rethrowInternalServerErrors then
        match sleepAbort abortAt c nextDelay with
        | some t => .thrown [.call method payload idx] .abortError t
        | none =>
          if !r.ok && attemptsPos rem then
            RunOut.withEvents [.call method payload idx, .sleep nextDelay]
              (run cfg tr method payload abortAt fuel (idx + 1)
                (backoffNext nextDelay) (attemptsDec rem) (c + nextDelay))
          else .done [.call method payload idx, .sleep nextDelay] r
      else .done [.call method payload idx] r

/-- The transformer returned by `autoRetry` on a fresh logical call:
`remainingAttempts = maxRetries`, `nextDelay = INITIAL_LAST_DELAY`
(src/src/mod.ts lines 102-103), no transport invocations yet, time 0. -/
def autoRetry (cfg : AutoRetryOptions) (tr : Nat → TransportResult)
    (method payload : String) (abortAt : Option Nat) (fuel : Nat) : RunOut :=
  run cfg tr method payload abortAt fuel 0 INITIAL_LAST_DELAY cfg.maxRetryAttempts 0

/-! ## The shared-cohort variant (src/unnamed/part_001)

This variant keeps a module-level `waitUntils` map from a wait key to an
absolute resume timestamp (in seconds). Its loop first stores
`now + retry_after` under the key when the inspected failure carries a
numeric `retry_after`, then computes the effective wait
`max((waitUntils.get(key) ?? 0) - now, 0)` and compares that against
`maxDelaySeconds`. -/

/-- Options of `autoRetry` in src/unnamed/part_001 after defaulting;
`none` encodes `Infinity`. `remainingAttempts` is tracked as an `Int`
because the loop condition `remainingAttempts-- >= 0` drives it below
zero. -/
structure SharedOptions where
  maxDelaySeconds : Option Nat
  maxRetryAttempts : Option Int
  retryOnInternalServerErrors : Bool
deriving DecidableEq

/-- `const DEFAULT_WAIT_KEY = (method) => method` (part_001 line 10). -/
def DEFAULT_WAIT_KEY (method : String) : String := method

/-- `waitUntils.get k` on the association-list model of the map. -/
def getWait : List (String × Nat) → String → Option Nat
  | [], _ => none
  | (k, v) :: rest, key => if k = key then some v else getWait rest key

/-- `waitUntils.set k v`: overwrites the entry for `k` if present,
otherwise appends it. -/
def setWait : List (String × Nat) → String → Nat → List (String × Nat)
  | [], key, v => [(key, v)]
  | (k, v0) :: rest, key, v =>
    if k = key then (key, v) :: rest else (k, v0) :: setWait rest key v

/-- `remainingAttempts >= 0` where `Infinity` (`none`) always passes. -/
def attemptsNonneg : Option Int → Bool
  | none => true
  | some z => 0 ≤ z

/-- The `remainingAttempts--` decrement of the shared variant. -/
def attemptsDecInt : Option Int → Option Int
  | none => none
  | some z => some (z - 1)

/-- Outcome of one logical call through the shared-cohort variant: the
returned response with the trace and the final state of the module-level
`waitUntils` map, or fuel exhaustion. -/
inductive SharedOut where
  | done (events : List Event) (r : ApiResponse) (waits : List (String × Nat))
  | diverge (events : List Event)
deriving DecidableEq

/-- Prefix a trace of already-performed events onto a shared outcome. -/
def SharedOut.withEvents (pre : List Event) : SharedOut → SharedOut
  | .done evs r w => .done (pre ++ evs) r w
  | .diverge evs => .diverge (pre ++ evs)

/-- The retry loop of src/unnamed/part_001 (lines 83-108). State: `result`
is the response under inspection (initially the `{ok: false}` placeholder),
`rem` is `remainingAttempts`, `waits` is the module-level `waitUntils` map,
`idx` counts transport invocations, and `k` counts loop iterations;
`clock k` is the `Math.trunc(Date.now() / 1000)` observed at iteration
`k`. The transport of this variant is modelled as always returning a
response (the variant installs no catch handler). -/
def runShared (cfg : SharedOptions) (tr : Nat → ApiResponse)
    (method payload key : String) (clock : Nat → Nat) :
    Nat → ApiResponse → Option Int → List (String × Nat) → Nat → Nat → SharedOut
  | 0, _, _, _, _, _ => .diverge []
  | fuel + 1, result, rem, waits, idx, k =>
    if result.ok then .done [] result waits
    else if !attemptsNonneg rem then .done [] result waits
    else
      let now := clock k
      let waits2 := match result.retry_after with
        | some ra => setWait waits key (now + ra)
        | none => waits
      let retryAfter := (getWait waits2 key).getD 0 - now
      if leMax retryAfter cfg.maxDelaySeconds then
        SharedOut.withEvents [.sleep retryAfter, .call method payload idx]
          (runShared cfg tr method payload key clock fuel (tr idx)
            (attemptsDecInt rem) waits2 (idx + 1) (k + 1))
      else if geq500 result.error_code && cfg.retryOnInternalServerErrors then
        SharedOut.withEvents [.call method payload idx]
          (runShared cfg tr method payload key clock fuel (tr idx)
            (attemptsDecInt rem) waits2 (idx + 1) (k + 1))
      else .done [] result waits2

/-- The `{ ok: false }` placeholder the shared variant starts from
(part_001 line 86). -/
def placeholderResult : ApiResponse := ⟨false, none, none⟩

/-- The transformer of the shared-cohort variant on a fresh logical call,
starting from the module-level map state `waits0`. -/
def autoRetryShared (cfg : SharedOptions) (tr : Nat → ApiResponse)
    (method payload : String) (waitKey : String → String → String)
    (clock : Nat → Nat) (waits0 : List (String × Nat)) (fuel : Nat) : SharedOut :=
  runShared cfg tr method payload (waitKey method payload) clock fuel
    placeholderResult cfg.maxRetryAttempts waits0 0 0

/-! ## Helper lemmas -/

lemma callCount_append (a b : List Event) :
    callCount (a ++ b) = callCount a + callCount b := by
  simp [callCount, List.filter_append]

lemma callCount_call_sleep (m p : String) (i s : Nat) :
    callCount [Event.call m p i, Event.sleep s] = 1 := rfl

lemma callCount_call (m p : String) (i : Nat) :
    callCount [Event.call m p i] = 1 := rfl

lemma events_withEvents (pre : List Event) (out : RunOut) :
    (RunOut.withEvents pre out).events = pre ++ out.events := by
  cases out <;> rfl

lemma withEvents_done {pre evs : List Event} {out : RunOut} {r : ApiResponse}
    (h : RunOut.withEvents pre out = .done evs r) :
    ∃ evs2, out = .done evs2 r ∧ evs = pre ++ evs2 := by
  cases out with
  | done evs2 r2 =>
    simp only [RunOut.withEvents, RunOut.done.injEq] at h
    exact ⟨evs2, by rw [h.2], h.1.symm⟩
  | thrown evs2 e t => simp [RunOut.withEvents] at h
  | diverge evs2 => simp [RunOut.withEvents] at h

/-- Every step of the loop begins by invoking the transport with the fixed
method and payload of the logical call. -/
lemma run_events_head (cfg : AutoRetryOptions) (tr : Nat → TransportResult)
    (m p : String) (abortAt : Option Nat) (fuel idx nd : Nat)
    (rem : Option Nat) (c : Nat) :
    (run cfg tr m p abortAt (fuel + 1) idx nd rem c).events.head? =
      some (.call m p idx) := by
  rw [run]
  cases tr idx with
  | resp r =>
    dsimp only
    split
    · split
      · rfl
      · split <;> first | rfl | simp [events_withEvents]
    · split
      · split
        · rfl
        · split <;> first | rfl | simp [events_withEvents]
      · rfl
  | throwHttp e =>
    dsimp only
    split
    · rfl
    · split
      · rfl
      · simp [events_withEvents]
  | throwOther e => rfl

/-- In a terminating throw-free run the number of transport invocations is
at most one more than the initial attempt budget. -/
lemma run_calls_le (cfg : AutoRetryOptions) (tr : Nat → TransportResult)
    (m p : String) (abortAt : Option Nat)
    (htr : ∀ i, (tr i).isResp = true) :
    ∀ (fuel idx nd n c : Nat) (evs : List Event) (r : ApiResponse),
      run cfg tr m p abortAt fuel idx nd (some n) c = .done evs r →
      callCount evs ≤ n + 1 := by
  intro fuel
  induction fuel with
  | zero =>
    intro idx nd n c evs r h
    simp [run] at h
  | succ fuel ih =>
    intro idx nd n c evs r h
    rw [run] at h
    cases htri : tr idx with
    | throwHttp e =>
      have := htr idx
      rw [htri] at this
      simp [TransportResult.isResp] at this
    | throwOther e =>
      have := htr idx
      rw [htri] at this
      simp [TransportResult.isResp] at this
    | resp r2 =>
      rw [htri] at h
      dsimp only at h
      by_cases hrl : rateLimited r2 cfg.maxDelaySeconds = true
      · rw [if_pos hrl] at h
        cases hsa : sleepAbort abortAt c (r2.retry_after.getD 0) with
        | some t => rw [hsa] at h; simp at h
        | none =>
          rw [hsa] at h
          by_cases hc : (!r2.ok && attemptsPos (some n)) = true
          · rw [if_pos hc] at h
            obtain ⟨evs2, h2, hevs⟩ := withEvents_done h
            have hpos : 0 < n := by
              have := (Bool.and_eq_true _ _).mp hc
              simpa [attemptsPos] using this.2
            have hdec : attemptsDec (some n) = some (n - 1) := rfl
            rw [hdec] at h2
            have := ih _ _ _ _ _ _ h2
            rw [hevs, callCount_append, callCount_call_sleep]
            omega
          · rw [if_neg hc] at h
            cases h
            rw [callCount_call_sleep]
            omega
      · rw [if_neg hrl] at h
        by_cases hsrv : (geq500 r2.error_code && !cfg.rethrowInternalServerErrors) = true
        · rw [if_pos hsrv] at h
          cases hsa : sleepAbort abortAt c nd with
          | some t => rw [hsa] at h; simp at h
          | none =>
            rw [hsa] at h
            by_cases hc : (!r2.ok && attemptsPos (some n)) = true
            · rw [if_pos hc] at h
              obtain ⟨evs2, h2, hevs⟩ := withEvents_done h
              have hpos : 0 < n := by
                have := (Bool.and_eq_true _ _).mp hc
                simpa [attemptsPos] using this.2
              have hdec : attemptsDec (some n) = some (n - 1) := rfl
              rw [hdec] at h2
              have := ih _ _ _ _ _ _ h2
              rw [hevs, callCount_append, callCount_call_sleep]
              omega
            · rw [if_neg hc] at h
              cases h
              rw [callCount_call_sleep]
              omega
        · rw [if_neg hsrv] at h
          cases h
          rw [callCount_call]
          omega

/-! ## The claims -/

/-- C8: for every request whose first transport attempt returns a Success
(an `ok` response, which carries neither a `retry_after` hint nor an error
code at or above 500), the wrapped caller returns that Success, the trace
holds exactly one transport invocation, and no sleep is performed. -/
theorem c8_first_success (cfg : AutoRetryOptions) (tr : Nat → TransportResult)
    (m p : String) (abortAt : Option Nat) (fuel : Nat) (r : ApiResponse)
    (htr : tr 0 = .resp r) (hok : r.ok = true) (hra : r.retry_after = none)
    (hcode : geq500 r.error_code = false) :
    autoRetry cfg tr m p abortAt (fuel + 1) = .done [.call m p 0] r ∧
      callCount [Event.call m p 0] = 1 ∧ sleepCount [Event.call m p 0] = 0 := by
  refine ⟨?_, rfl, rfl⟩
  unfold autoRetry
  rw [run, htr]
  dsimp only
  rw [if_neg, if_neg]
  · simp [hcode]
  · simp [rateLimited, hra]

/-- C8 witness: a transport that succeeds on its first attempt is invoked
once and its success is returned with no sleep. -/
theorem c8_first_success_witness :
    autoRetry ⟨some 5, some 3, false, false⟩
        (fun _ => .resp ⟨true, none, none⟩) "sendMessage" "x" none 7 =
      .done [.call "sendMessage" "x" 0] ⟨true, none, none⟩ ∧
      callCount [Event.call "sendMessage" "x" 0] = 1 ∧
      sleepCount [Event.call "sendMessage" "x" 0] = 0 :=
  c8_first_success ⟨some 5, some 3, false, false⟩
    (fun _ => .resp ⟨true, none, none⟩) "sendMessage" "x" none 6
    ⟨true, none, none⟩ rfl rfl rfl rfl

/-- C3: a Failure whose `retry_after` exceeds `maxDelaySeconds`, when its
error code is below 500 (or absent) or server-error retrying is disabled,
is returned immediately as a normal value: the trace holds the one
transport invocation that produced it, no sleep, and no resubmission. -/
theorem c3_excessive_delay_is_final (cfg : AutoRetryOptions)
    (tr : Nat → TransportResult) (m p : String) (abortAt : Option Nat)
    (fuel idx nd : Nat) (rem : Option Nat) (c : Nat) (r : ApiResponse) (ra : Nat)
    (htr : tr idx = .resp r) (hra : r.retry_after = some ra)
    (hgt : leMax ra cfg.maxDelaySeconds = false)
    (hsrv : geq500 r.error_code = false ∨ cfg.rethrowInternalServerErrors = true) :
    run cfg tr m p abortAt (fuel + 1) idx nd rem c = .done [.call m p idx] r ∧
      callCount [Event.call m p idx] = 1 ∧ sleepCount [Event.call m p idx] = 0 := by
  refine ⟨?_, rfl, rfl⟩
  rw [run, htr]
  dsimp only
  rw [if_neg, if_neg]
  · rcases hsrv with h | h <;> simp [h]
  · simp [rateLimited, hra, hgt]

/-- C3 witness: a failure demanding a 10-second wait under
`maxDelaySeconds = 5` is returned at once, with one transport invocation
and no sleep. -/
theorem c3_excessive_delay_is_final_witness :
    run ⟨some 5, some 3, false, false⟩
        (fun _ => .resp ⟨false, some 429, some 10⟩) "sendMessage" "x" none
        4 0 3 (some 3) 0 =
      .done [.call "sendMessage" "x" 0] ⟨false, some 429, some 10⟩ ∧
      callCount [Event.call "sendMessage" "x" 0] = 1 ∧
      sleepCount [Event.call "sendMessage" "x" 0] = 0 :=
  c3_excessive_delay_is_final ⟨some 5, some 3, false, false⟩
    (fun _ => .resp ⟨false, some 429, some 10⟩) "sendMessage" "x" none
    3 0 3 (some 3) 0 ⟨false, some 429, some 10⟩ 10 rfl rfl rfl (Or.inl rfl)

/-- C2: a Failure carrying `retry_after = ra` with `ra ≤ maxDelaySeconds`,
with attempt budget remaining and no abort during the wait, makes the
caller sleep exactly `ra` seconds (hence at least `ra`) and then resubmit;
the next transport invocation — like every transport invocation of this
logical call — passes the identical method and payload. -/
theorem c2_rate_limit_sleep_and_resubmit (cfg : AutoRetryOptions)
    (tr : Nat → TransportResult) (m p : String) (abortAt : Option Nat)
    (fuel idx nd : Nat) (rem : Option Nat) (c : Nat) (r : ApiResponse) (ra : Nat)
    (htr : tr idx = .resp r) (hok : r.ok = false) (hra : r.retry_after = some ra)
    (hle : leMax ra cfg.maxDelaySeconds = true) (hrem : attemptsPos rem = true)
    (hab : sleepAbort abortAt c ra = none) :
    run cfg tr m p abortAt (fuel + 1) idx nd rem c =
      RunOut.withEvents [.call m p idx, .sleep ra]
        (run cfg tr m p abortAt fuel (idx + 1) INITIAL_LAST_DELAY
          (attemptsDec rem) (c + ra)) ∧
    (∀ fuel2 nd2 rem2 c2,
      (run cfg tr m p abortAt (fuel2 + 1) (idx + 1) nd2 rem2 c2).events.head? =
        some (.call m p (idx + 1))) := by
  refine ⟨?_, fun fuel2 nd2 rem2 c2 => run_events_head cfg tr m p abortAt fuel2 (idx + 1) nd2 rem2 c2⟩
  rw [run, htr]
  dsimp only
  rw [if_pos]
  · rw [hra]
    dsimp only [Option.getD]
    rw [hab]
    rw [if_pos]
    simp [hok, hrem]
  · simp [rateLimited, hra, hle]

/-- C2 witness: a failure with `retry_after = 3` under `maxDelaySeconds = 5`
sleeps 3 seconds and resubmits the identical request. -/
theorem c2_rate_limit_sleep_and_resubmit_witness :
    run ⟨some 5, some 3, false, false⟩
        (fun _ => .resp ⟨false, some 429, some 3⟩) "sendMessage" "x" none
        1 0 3 (some 3) 0 =
      RunOut.withEvents [.call "sendMessage" "x" 0, .sleep 3]
        (run ⟨some 5, some 3, false, false⟩
          (fun _ => .resp ⟨false, some 429, some 3⟩) "sendMessage" "x" none
          0 1 INITIAL_LAST_DELAY (attemptsDec (some 3)) 3) ∧
    (∀ fuel2 nd2 rem2 c2,
      (run ⟨some 5, some 3, false, false⟩
          (fun _ => .resp ⟨false, some 429, some 3⟩) "sendMessage" "x" none
          (fuel2 + 1) 1 nd2 rem2 c2).events.head? =
        some (.call "sendMessage" "x" 1)) :=
  c2_rate_limit_sleep_and_resubmit ⟨some 5, some 3, false, false⟩
    (fun _ => .resp ⟨false, some 429, some 3⟩) "sendMessage" "x" none
    0 0 3 (some 3) 0 ⟨false, some 429, some 3⟩ 3 rfl rfl rfl rfl rfl rfl

/-- C9: on a Failure that carries both a qualifying `retry_after` (within
`maxDelaySeconds`) and an error code at or above 500 while server-error
retrying is enabled, the iteration takes the rate-limit path: it sleeps
`retry_after` (not the backoff delay) and resets the backoff seed to
`INITIAL_LAST_DELAY`; the server-error backoff path is not reached. -/
theorem c9_rate_limit_precedence (cfg : AutoRetryOptions)
    (tr : Nat → TransportResult) (m p : String) (abortAt : Option Nat)
    (fuel idx nd : Nat) (rem : Option Nat) (c : Nat) (r : ApiResponse) (ra : Nat)
    (htr : tr idx = .resp r) (hok : r.ok = false) (hra : r.retry_after = some ra)
    (hle : leMax ra cfg.maxDelaySeconds = true)
    (hcode : geq500 r.error_code = true)
    (hsrv : cfg.rethrowInternalServerErrors = false)
    (hrem : attemptsPos rem = true) (hab : sleepAbort abortAt c ra = none) :
    run cfg tr m p abortAt (fuel + 1) idx nd rem c =
      RunOut.withEvents [.call m p idx, .sleep ra]
        (run cfg tr m p abortAt fuel (idx + 1) INITIAL_LAST_DELAY
          (attemptsDec rem) (c + ra)) := by
  rw [run, htr]
  dsimp only
  rw [if_pos]
  · rw [hra]
    dsimp only [Option.getD]
    rw [hab]
    rw [if_pos]
    simp [hok, hrem]
  · simp [rateLimited, hra, hle]

/-- C9 witness: a 500-coded failure that also carries `retry_after = 2`
under `maxDelaySeconds = 5` and enabled server-error retrying follows the
rate-limit path: sleep 2, backoff seed reset. -/
theorem c9_rate_limit_precedence_witness :
    run ⟨some 5, some 3, false, false⟩
        (fun _ => .resp ⟨false, some 500, some 2⟩) "sendMessage" "x" none
        1 0 48 (some 3) 0 =
      RunOut.withEvents [.call "sendMessage" "x" 0, .sleep 2]
        (run ⟨some 5, some 3, false, false⟩
          (fun _ => .resp ⟨false, some 500, some 2⟩) "sendMessage" "x" none
          0 1 INITIAL_LAST_DELAY (attemptsDec (some 3)) 2) :=
  c9_rate_limit_precedence ⟨some 5, some 3, false, false⟩
    (fun _ => .resp ⟨false, some 500, some 2⟩) "sendMessage" "x" none
    0 0 48 (some 3) 0 ⟨false, some 500, some 2⟩ 2 rfl rfl rfl rfl rfl rfl rfl rfl

/-- C4: the server-error backoff delay starts at `INITIAL_LAST_DELAY = 3`
seconds; its update is `min(3600, d + d)`, which strictly doubles the delay
whenever the doubled value stays within one hour and never produces more
than 3600 seconds; each consecutive server-error retry sleeps the current
delay and continues with the updated one; and a rate-limit-driven retry
resets the delay to its initial value. -/
theorem c4_exponential_backoff :
    INITIAL_LAST_DELAY = 3 ∧
    (∀ d, backoffNext d = min ONE_HOUR (d + d)) ∧
    (∀ d, backoffNext d ≤ ONE_HOUR) ∧
    (∀ d, 0 < d → d + d ≤ ONE_HOUR → backoffNext d = 2 * d ∧ d < backoffNext d) ∧
    (∀ (cfg : AutoRetryOptions) (tr : Nat → TransportResult) (m p : String)
        (abortAt : Option Nat) (fuel idx nd : Nat) (rem : Option Nat) (c : Nat)
        (r : ApiResponse),
      tr idx = .resp r → r.ok = false →
      rateLimited r cfg.maxDelaySeconds = false →
      geq500 r.error_code = true → cfg.rethrowInternalServerErrors = false →
      attemptsPos rem = true → sleepAbort abortAt c nd = none →
      run cfg tr m p abortAt (fuel + 1) idx nd rem c =
        RunOut.withEvents [.call m p idx, .sleep nd]
          (run cfg tr m p abortAt fuel (idx + 1) (backoffNext nd)
            (attemptsDec rem) (c + nd))) ∧
    (∀ (cfg : AutoRetryOptions) (tr : Nat → TransportResult) (m p : String)
        (abortAt : Option Nat) (fuel idx nd : Nat) (rem : Option Nat) (c : Nat)
        (r : ApiResponse) (ra : Nat),
      tr idx = .resp r → r.ok = false → r.retry_after = some ra →
      leMax ra cfg.maxDelaySeconds = true → attemptsPos rem = true →
      sleepAbort abortAt c ra = none →
      run cfg tr m p abortAt (fuel + 1) idx nd rem c =
        RunOut.withEvents [.call m p idx, .sleep ra]
          (run cfg tr m p abortAt fuel (idx + 1) INITIAL_LAST_DELAY
            (attemptsDec rem) (c + ra))) := by
  refine ⟨rfl, fun d => rfl, ?_, ?_, ?_, ?_⟩
  · intro d
    exact min_le_left _ _
  · intro d hd hcap
    unfold backoffNext
    constructor
    · rw [min_eq_right hcap]
      omega
    · rw [min_eq_right hcap]
      omega
  · intro cfg tr m p abortAt fuel idx nd rem c r htr hok hrl hcode hsrv hrem hab
    rw [run, htr]
    dsimp only
    rw [if_neg, if_pos]
    · rw [hab]
      rw [if_pos]
      simp [hok, hrem]
    · simp [hcode, hsrv]
    · simp [hrl]
  · intro cfg tr m p abortAt fuel idx nd rem c r ra htr hok hra hle hrem hab
    rw [run, htr]
    dsimp only
    rw [if_pos]
    · rw [hra]
      dsimp only [Option.getD]
      rw [hab]
      rw [if_pos]
      simp [hok, hrem]
    · simp [rateLimited, hra, hle]

/-- C4 witness: the backoff delay strictly doubles from its 3-second seed
(3 to 6) and the update never exceeds one hour. -/
theorem c4_exponential_backoff_witness :
    backoffNext 3 = 2 * 3 ∧ 3 < backoffNext 3 :=
  c4_exponential_backoff.2.2.2.1 3 (by decide) (by decide)

/-- C5: a thrown transport-level error is retried with the same
exponential backoff as server errors when it is an `HttpError`,
`rethrowHttpErrors` is off, and the signal has not fired — and that retry
leaves `remainingAttempts` untouched; in every other case (rethrow
configured, signal already fired, or a non-`HttpError`) the error is
propagated immediately and unmodified. -/
theorem c5_transport_error_handling :
    (∀ (cfg : AutoRetryOptions) (tr : Nat → TransportResult) (m p : String)
        (abortAt : Option Nat) (fuel idx nd : Nat) (rem : Option Nat) (c e : Nat),
      tr idx = .throwHttp e → abortedNow abortAt c = false →
      cfg.rethrowHttpErrors = false → sleepAbort abortAt c nd = none →
      run cfg tr m p abortAt (fuel + 1) idx nd rem c =
        RunOut.withEvents [.call m p idx, .sleep nd]
          (run cfg tr m p abortAt fuel (idx + 1) (backoffNext nd) rem (c + nd))) ∧
    (∀ (cfg : AutoRetryOptions) (tr : Nat → TransportResult) (m p : String)
        (abortAt : Option Nat) (fuel idx nd : Nat) (rem : Option Nat) (c e : Nat),
      tr idx = .throwHttp e → cfg.rethrowHttpErrors = true →
      run cfg tr m p abortAt (fuel + 1) idx nd rem c =
        .thrown [.call m p idx] (.http e) c) ∧
    (∀ (cfg : AutoRetryOptions) (tr : Nat → TransportResult) (m p : String)
        (abortAt : Option Nat) (fuel idx nd : Nat) (rem : Option Nat) (c e : Nat),
      tr idx = .throwHttp e → abortedNow abortAt c = true →
      run cfg tr m p abortAt (fuel + 1) idx nd rem c =
        .thrown [.call m p idx] (.http e) c) ∧
    (∀ (cfg : AutoRetryOptions) (tr : Nat → TransportResult) (m p : String)
        (abortAt : Option Nat) (fuel idx nd : Nat) (rem : Option Nat) (c e : Nat),
      tr idx = .throwOther e →
      run cfg tr m p abortAt (fuel + 1) idx nd rem c =
        .thrown [.call m p idx] (.other e) c) := by
  refine ⟨?_, ?_, ?_, ?_⟩
  · intro cfg tr m p abortAt fuel idx nd rem c e htr habn hcfg hab
    rw [run, htr]
    dsimp only
    rw [if_neg]
    · rw [hab]
    · simp [habn, hcfg]
  · intro cfg tr m p abortAt fuel idx nd rem c e htr hcfg
    rw [run, htr]
    dsimp only
    rw [if_pos]
    simp [hcfg]
  · intro cfg tr m p abortAt fuel idx nd rem c e htr habn
    rw [run, htr]
    dsimp only
    rw [if_pos]
    simp [habn]
  · intro cfg tr m p abortAt fuel idx nd rem c e htr
    rw [run, htr]

/-- C5 witness: with the defaults and no signal, a thrown `HttpError` is
retried after the current backoff delay without touching the budget. -/
theorem c5_transport_error_handling_witness :
    run ⟨none, some 3, false, false⟩ (fun _ => .throwHttp 9) "sendMessage" "x"
        none 1 0 3 (some 3) 0 =
      RunOut.withEvents [.call "sendMessage" "x" 0, .sleep 3]
        (run ⟨none, some 3, false, false⟩ (fun _ => .throwHttp 9) "sendMessage" "x"
          none 0 1 (backoffNext 3) (some 3) 3) :=
  c5_transport_error_handling.1 ⟨none, some 3, false, false⟩
    (fun _ => .throwHttp 9) "sendMessage" "x" none 0 0 3 (some 3) 0 9
    rfl rfl rfl rfl

/-- C7: when the cancellation signal fires at time `t` strictly inside a
sleeping window — a rate-limit wait of `ra` seconds started at `c`, or a
backoff wait of `nd` seconds before an `HttpError` retry — the sleep is
aborted and the logical call fails with the abort error at time `t`,
strictly before the scheduled delay would have elapsed, and the trace shows
no resubmission after the aborted wait. -/
theorem c7_cancellation_mid_sleep :
    (∀ (cfg : AutoRetryOptions) (tr : Nat → TransportResult) (m p : String)
        (fuel idx nd : Nat) (rem : Option Nat) (c : Nat) (r : ApiResponse) (ra t : Nat),
      tr idx = .resp r → r.retry_after = some ra →
      leMax ra cfg.maxDelaySeconds = true → c < t → t < c + ra →
      run cfg tr m p (some t) (fuel + 1) idx nd rem c =
        .thrown [.call m p idx] .abortError t ∧ t < c + ra ∧
        callCount [Event.call m p idx] = 1) ∧
    (∀ (cfg : AutoRetryOptions) (tr : Nat → TransportResult) (m p : String)
        (fuel idx nd : Nat) (rem : Option Nat) (c e t : Nat),
      tr idx = .throwHttp e → cfg.rethrowHttpErrors = false →
      c < t → t < c + nd →
      run cfg tr m p (some t) (fuel + 1) idx nd rem c =
        .thrown [.call m p idx] .abortError t ∧ t < c + nd ∧
        callCount [Event.call m p idx] = 1) := by
  constructor
  · intro cfg tr m p fuel idx nd rem c r ra t htr hra hle h1 h2
    refine ⟨?_, h2, rfl⟩
    rw [run, htr]
    dsimp only
    rw [if_pos]
    · rw [hra]
      dsimp only [Option.getD]
      rw [show sleepAbort (some t) c ra = some t by simp [sleepAbort, h1, h2]]
    · simp [rateLimited, hra, hle]
  · intro cfg tr m p fuel idx nd rem c e t htr hcfg h1 h2
    refine ⟨?_, h2, rfl⟩
    rw [run, htr]
    dsimp only
    rw [if_neg]
    · rw [show sleepAbort (some t) c nd = some t by simp [sleepAbort, h1, h2]]
    · simp [abortedNow, hcfg]
      omega

/-- C7 witness: a signal firing at second 2 of a 3-second rate-limit wait
aborts the call at second 2, before the wait would have ended, with no
resubmission. -/
theorem c7_cancellation_mid_sleep_witness :
    run ⟨some 5, some 3, false, false⟩
        (fun _ => .resp ⟨false, some 429, some 3⟩) "sendMessage" "x" (some 2)
        1 0 3 (some 3) 0 =
      .thrown [.call "sendMessage" "x" 0] .abortError 2 ∧ 2 < 0 + 3 ∧
      callCount [Event.call "sendMessage" "x" 0] = 1 :=
  c7_cancellation_mid_sleep.1 ⟨some 5, some 3, false, false⟩
    (fun _ => .resp ⟨false, some 429, some 3⟩) "sendMessage" "x" 0 0 3 (some 3) 0
    ⟨false, some 429, some 3⟩ 3 2 rfl rfl rfl (by decide) (by decide)

/-- C10: with `rethrowHttpErrors` left at its default `false` and no
cancellation signal, a transport that throws an `HttpError` on every
invocation keeps the logical call retrying forever: for every fuel bound
the run is still going and has already invoked the transport exactly
`fuel` times, regardless of any finite `maxRetryAttempts` — the inner
transport-error loop consults no attempt budget. -/
theorem c10_transport_errors_retry_forever (cfg : AutoRetryOptions)
    (hcfg : cfg.rethrowHttpErrors = false) (e : Nat) (m p : String) :
    ∀ (fuel idx nd : Nat) (rem : Option Nat) (c : Nat), ∃ evs,
      run cfg (fun _ => .throwHttp e) m p none fuel idx nd rem c = .diverge evs ∧
      callCount evs = fuel := by
  intro fuel
  induction fuel with
  | zero =>
    intro idx nd rem c
    exact ⟨[], rfl, rfl⟩
  | succ fuel ih =>
    intro idx nd rem c
    obtain ⟨evs, hrun, hcount⟩ := ih (idx + 1) (backoffNext nd) rem (c + nd)
    refine ⟨[Event.call m p idx, Event.sleep nd] ++ evs, ?_, ?_⟩
    · rw [run]
      dsimp only
      rw [if_neg]
      · rw [show sleepAbort none c nd = none from rfl, hrun]
        rfl
      · simp [abortedNow, hcfg]
    · rw [callCount_append, hcount, callCount_call_sleep]
      omega

/-- C10 witness: with default error handling, a finite budget of 2 and an
always-throwing transport, a fuel bound of 5 is consumed whole: 5 transport
invocations and the call is still running. -/
theorem c10_transport_errors_retry_forever_witness :
    ∃ evs,
      run ⟨none, some 2, false, false⟩ (fun _ => .throwHttp 1) "m" "p" none
          5 0 3 (some 2) 0 = .diverge evs ∧
      callCount evs = 5 :=
  c10_transport_errors_retry_forever ⟨none, some 2, false, false⟩ rfl 1 "m" "p"
    5 0 3 (some 2) 0

/-- C1 (counterexample to the claim as stated): under
`{maxRetryAttempts: 1, maxDelaySeconds: 5}` with every attempt failing
with `retry_after = 3`, the run performs one resubmission and returns the
second Failure as final — but the trace ends with a completed 3-second
sleep after that final Failure was received: the loop sleeps the
`retry_after` before it checks the budget, so the claim's "no further
sleep" is false. -/
theorem c1_counterexample :
    autoRetry ⟨some 5, some 1, false, false⟩
        (fun _ => .resp ⟨false, some 429, some 3⟩) "sendMessage" "x" none 10 =
      .done [.call "sendMessage" "x" 0, .sleep 3, .call "sendMessage" "x" 1, .sleep 3]
        ⟨false, some 429, some 3⟩ ∧
    List.getLast? [Event.call "sendMessage" "x" 0, .sleep 3,
        .call "sendMessage" "x" 1, .sleep 3] = some (.sleep 3) ∧
    sleepCount [Event.call "sendMessage" "x" 0, .sleep 3,
        .call "sendMessage" "x" 1, .sleep 3] = 2 := by
  refine ⟨?_, rfl, rfl⟩
  rfl

/-- C1 (amended): with `maxRetryAttempts = N` and a transport that always
returns responses, at most N resubmissions occur (at most N + 1 transport
invocations) and the (N+1)-th Failure is returned as the final result; in
the example policy `{maxRetryAttempts: 1, maxDelaySeconds: 5}` with every
attempt failing with `retry_after = 3`, the caller sleeps 3 seconds,
resubmits once, sleeps the second failure's 3-second `retry_after` as well
(the sleep precedes the budget check), and then returns that second
Failure as final. -/
theorem c1_attempt_budget :
    (∀ (cfg : AutoRetryOptions) (tr : Nat → TransportResult) (m p : String)
        (abortAt : Option Nat) (N fuel : Nat) (evs : List Event) (r : ApiResponse),
      (∀ i, (tr i).isResp = true) → cfg.maxRetryAttempts = some N →
      autoRetry cfg tr m p abortAt fuel = .done evs r →
      callCount evs ≤ N + 1) ∧
    (autoRetry ⟨some 5, some 1, false, false⟩
        (fun _ => .resp ⟨false, some 429, some 3⟩) "sendMessage" "x" none 10 =
      .done [.call "sendMessage" "x" 0, .sleep 3, .call "sendMessage" "x" 1, .sleep 3]
        ⟨false, some 429, some 3⟩) := by
  constructor
  · intro cfg tr m p abortAt N fuel evs r htr hN h
    unfold autoRetry at h
    rw [hN] at h
    exact run_calls_le cfg tr m p abortAt htr fuel 0 INITIAL_LAST_DELAY N 0 evs r h
  · rfl

/-- C1 witness: in the example run the trace holds 2 transport invocations,
which is within the budget bound 1 + 1. -/
theorem c1_attempt_budget_witness :
    callCount [Event.call "sendMessage" "x" 0, .sleep 3,
      .call "sendMessage" "x" 1, .sleep 3] ≤ 1 + 1 :=
  c1_attempt_budget.1 ⟨some 5, some 1, false, false⟩
    (fun _ => .resp ⟨false, some 429, some 3⟩) "sendMessage" "x" none 1 10
    [Event.call "sendMessage" "x" 0, .sleep 3, .call "sendMessage" "x" 1, .sleep 3]
    ⟨false, some 429, some 3⟩ (fun _ => rfl) rfl rfl

/-- The `waitUntils.set` of the shared variant overwrites any earlier entry
for the key. -/
lemma getWait_setWait (waits : List (String × Nat)) (key : String) (v : Nat) :
    getWait (setWait waits key v) key = some v := by
  induction waits with
  | nil => simp [setWait, getWait]
  | cons hd tl ih =>
    obtain ⟨k, v0⟩ := hd
    by_cases hk : k = key
    · simp [setWait, getWait, hk]
    · simp [setWait, getWait, hk, ih]

/-- C6: in the shared-cohort variant, a Failure carrying a numeric
`retry_after = ra` makes the loop record the cohort-wide resume timestamp
`now + ra`, overwriting any earlier value for the key, and sleep the
effective wait — which for that iteration equals `ra` — before
resubmitting; on a Failure without `retry_after` the loop still computes
the effective wait `max(0, resume - now)` from the recorded timestamp
(truncated natural subtraction), and it is this effective wait, not the
raw `retry_after` of the current attempt, that is compared against
`maxDelaySeconds`: in particular a Failure carrying no `retry_after` at
all is returned as final when the cohort's pending wait exceeds the
threshold. -/
theorem c6_cohort_effective_wait :
    (∀ (waits : List (String × Nat)) (key : String) (v : Nat),
      getWait (setWait waits key v) key = some v) ∧
    (∀ (waits : List (String × Nat)) (key : String) (ra now : Nat),
      (getWait (setWait waits key (now + ra)) key).getD 0 - now = ra) ∧
    (∀ (cfg : SharedOptions) (tr : Nat → ApiResponse) (m p key : String)
        (clock : Nat → Nat) (fuel : Nat) (result : ApiResponse)
        (rem : Option Int) (waits : List (String × Nat)) (idx k ra : Nat),
      result.ok = false → attemptsNonneg rem = true →
      result.retry_after = some ra →
      leMax ra cfg.maxDelaySeconds = true →
      runShared cfg tr m p key clock (fuel + 1) result rem waits idx k =
        SharedOut.withEvents [.sleep ra, .call m p idx]
          (runShared cfg tr m p key clock fuel (tr idx) (attemptsDecInt rem)
            (setWait waits key (clock k + ra)) (idx + 1) (k + 1))) ∧
    (∀ (cfg : SharedOptions) (tr : Nat → ApiResponse) (m p key : String)
        (clock : Nat → Nat) (fuel : Nat) (result : ApiResponse)
        (rem : Option Int) (waits : List (String × Nat)) (idx k : Nat),
      result.ok = false → attemptsNonneg rem = true →
      result.retry_after = none →
      leMax ((getWait waits key).getD 0 - clock k) cfg.maxDelaySeconds = true →
      runShared cfg tr m p key clock (fuel + 1) result rem waits idx k =
        SharedOut.withEvents
          [.sleep ((getWait waits key).getD 0 - clock k), .call m p idx]
          (runShared cfg tr m p key clock fuel (tr idx) (attemptsDecInt rem)
            waits (idx + 1) (k + 1))) ∧
    (∀ (cfg : SharedOptions) (tr : Nat → ApiResponse) (m p key : String)
        (clock : Nat → Nat) (fuel : Nat) (result : ApiResponse)
        (rem : Option Int) (waits : List (String × Nat)) (idx k : Nat),
      result.ok = false → attemptsNonneg rem = true →
      result.retry_after = none →
      leMax ((getWait waits key).getD 0 - clock k) cfg.maxDelaySeconds = false →
      geq500 result.error_code = false ∨ cfg.retryOnInternalServerErrors = false →
      runShared cfg tr m p key clock (fuel + 1) result rem waits idx k =
        .done [] result waits) := by
  refine ⟨getWait_setWait, ?_, ?_, ?_, ?_⟩
  · intro waits key ra now
    rw [getWait_setWait]
    simp
  · intro cfg tr m p key clock fuel result rem waits idx k ra hok hnn hra hle
    rw [runShared]
    simp only [hok, hnn, hra, Bool.not_true, Bool.false_eq_true, if_false]
    simp only [getWait_setWait, Option.getD_some]
    rw [show clock k + ra - clock k = ra by omega]
    simp [hle]
  · intro cfg tr m p key clock fuel result rem waits idx k hok hnn hra hle
    rw [runShared]
    simp only [hok, hnn, hra, Bool.not_true, Bool.false_eq_true, if_false]
    simp [hle]
  · intro cfg tr m p key clock fuel result rem waits idx k hok hnn hra hle hsrv
    rw [runShared]
    simp only [hok, hnn, hra, Bool.not_true, Bool.false_eq_true, if_false]
    rcases hsrv with h | h <;> simp [hle, h]

/-- C6 witness: a failure carrying no `retry_after`, in a cohort whose
recorded resume timestamp lies 90 seconds ahead of the clock while
`maxDelaySeconds = 5`, is returned as final on the effective wait alone. -/
theorem c6_cohort_effective_wait_witness :
    runShared ⟨some 5, some 3, false⟩ (fun _ => ⟨false, some 400, none⟩)
        "m" "p" "m" (fun _ => 10) 10 ⟨false, some 400, none⟩ (some 3)
        [("m", 100)] 0 0 =
      .done [] ⟨false, some 400, none⟩ [("m", 100)] :=
  c6_cohort_effective_wait.2.2.2.2 ⟨some 5, some 3, false⟩
    (fun _ => ⟨false, some 400, none⟩) "m" "p" "m" (fun _ => 10) 9
    ⟨false, some 400, none⟩ (some 3) [("m", 100)] 0 0
    rfl rfl rfl rfl (Or.inl rfl)

end AutoRetry
